import Mathlib

set_option maxHeartbeats 1000000

/-!
Shallow embedding of the network-isolation reconciliation steps of
snap-openstack (sunbeam-python):

* `sunbeam/steps/juju_spaces.py`     — `EnsureJujuSpacesStep`
* `sunbeam/steps/k8s_isolation.py`   — `EnsureMetalLBIsolationStep`
* `sunbeam/steps/network_isolation.py` — `import_network_isolation_answers`

Each step is modelled as a pure function of the configuration read from the
answer store together with an environment (an oracle giving the outcome of
every external backend call the code can make).  Besides the `Result` the
model returns the trace of backend calls issued, in order, so that claims
about which calls are (not) performed can be stated.  Calls whose outcome
the Python code swallows (`except: pass`) are recorded in the trace but
their outcome is never consulted, exactly as in the source.
-/

/-- Result status of a sunbeam step (`sunbeam.core.common.ResultType`). -/
inductive ResultType where
  | completed
  | failed
  | skipped
  deriving DecidableEq, Repr

/-- Result of a sunbeam step (`sunbeam.core.common.Result`): a status plus a
message (empty when the Python code passes none). -/
structure Result where
  result_type : ResultType
  message : String := ""
  deriving DecidableEq, Repr

/-- Python truthiness of an optional string: `None` and `""` are falsy. -/
def pyTruthy : Option String → Bool
  | none => false
  | some s => !s.isEmpty

/-! ## EnsureJujuSpacesStep (juju_spaces.py) -/

/-- Configuration for `EnsureJujuSpacesStep`, as read by `_answers()`:
the `network_isolation` sub-mapping of the answers under key
`network_isolation`.  `enable_isolation` is the truthiness of
`ni.get("enable_isolation")`; `spaces` is `ni.get("spaces") or {}` in dict
iteration order, each value reduced to `(spec or {}).get("subnets") or []`
(so a missing/empty subnet list is the empty list). -/
structure SpacesConfig where
  enable_isolation : Bool
  spaces : List (String × List String)
  deriving Repr

/-- Backend calls `EnsureJujuSpacesStep.run` can issue: the
`juju spaces --format json` query, `juju set-space-subnets`,
`juju add-space`, and the `juju model-config default-space=management`
binding. -/
inductive JujuCall where
  | querySpaces
  | setSpaceSubnets (name : String) (subnets : List String)
  | addSpace (name : String) (subnets : List String)
  | setDefaultSpace
  deriving DecidableEq, Repr

/-- Environment oracle for the juju backend: the outcome of each call the
step can make.  `setSubnetsResult` and `defaultSpaceResult` are never
consulted by the model because the Python code swallows those failures
(`except Exception: pass`). -/
structure JujuEnv where
  spacesQuery : Except String (List String)
  setSubnetsResult : String → List String → Except String Unit
  addSpaceResult : String → List String → Except String Unit
  defaultSpaceResult : Except String Unit

/-- The `for name, spec in spaces.items()` loop of
`EnsureJujuSpacesStep.run`: returns `none` on success or `some msg` on the
first fatal (add-space) failure, together with the calls issued.  A space
with an empty subnet list is skipped; a space present in `existing` gets a
best-effort `set-space-subnets` whose outcome is ignored; an absent space
gets an `add-space` whose failure aborts the loop. -/
def spacesLoop (env : JujuEnv) (existing : List String) :
    List (String × List String) → Option String × List JujuCall
  | [] => (none, [])
  | (name, subnets) :: rest =>
    if subnets.isEmpty then
      spacesLoop env existing rest
    else if name ∈ existing then
      let r := spacesLoop env existing rest
      (r.1, JujuCall.setSpaceSubnets name subnets :: r.2)
    else
      match env.addSpaceResult name subnets with
      | Except.ok _ =>
        let r := spacesLoop env existing rest
        (r.1, JujuCall.addSpace name subnets :: r.2)
      | Except.error e =>
        (some ("Failed to ensure space " ++ name ++ ": " ++ e),
         [JujuCall.addSpace name subnets])

/-- Model of `EnsureJujuSpacesStep.is_skip`: skipped when isolation is
disabled or no spaces are configured; it performs no backend call. -/
def EnsureJujuSpacesStep.is_skip (cfg : SpacesConfig) : Result × List JujuCall :=
  if !cfg.enable_isolation then
    (⟨ResultType.skipped, "Network isolation disabled"⟩, [])
  else if cfg.spaces.isEmpty then
    (⟨ResultType.skipped, "No spaces specified"⟩, [])
  else
    (⟨ResultType.completed, ""⟩, [])

/-- Model of `EnsureJujuSpacesStep.run`: query the live space set (failure
is fatal), reconcile each configured space via `spacesLoop`, then issue the
best-effort `default-space` binding whose outcome is ignored. -/
def EnsureJujuSpacesStep.run (cfg : SpacesConfig) (env : JujuEnv) :
    Result × List JujuCall :=
  match env.spacesQuery with
  | Except.error e =>
    (⟨ResultType.failed, "Unable to read model spaces: " ++ e⟩,
     [JujuCall.querySpaces])
  | Except.ok existing =>
    match spacesLoop env existing cfg.spaces with
    | (some msg, calls) =>
      (⟨ResultType.failed, msg⟩, JujuCall.querySpaces :: calls)
    | (none, calls) =>
      (⟨ResultType.completed, ""⟩,
       JujuCall.querySpaces :: calls ++ [JujuCall.setDefaultSpace])

/-! ## EnsureMetalLBIsolationStep (k8s_isolation.py) -/

def PUBLIC_POOL_NAME : String := "sunbeam-public-pool"

def INTERNAL_POOL_NAME : String := "sunbeam-internal-pool"

def PUBLIC_ADV_NAME : String := "sunbeam-public-adv"

def INTERNAL_ADV_NAME : String := "sunbeam-internal-adv"

/-- The static `TRAEFIK_APPS` table, in dict iteration order: application
name to the fixed pool name whose address it should use. -/
def TRAEFIK_APPS : List (String × String) :=
  [("traefik", INTERNAL_POOL_NAME),
   ("traefik-public", PUBLIC_POOL_NAME),
   ("traefik-rgw", PUBLIC_POOL_NAME)]

/-- The `k8s-addons` sub-mapping of the `TerraformVarsK8SAddons` answers:
optional explicit public/internal pool ranges and the optional single
shared `loadbalancer` range.  `none` models a missing key; `some ""` is
possible and falsy, matching Python truthiness. -/
structure AddonsConfig where
  lb_public_pool : Option String
  lb_internal_pool : Option String
  loadbalancer : Option String
  deriving Repr

/-- The answers under the `network_isolation` key as read by
`k8s_isolation.py`: only the truthiness of `enable_isolation` matters. -/
structure NIAnswersK8s where
  enable_isolation : Bool
  deriving Repr

/-- Model of `EnsureMetalLBIsolationStep._ranges_from_answers`: explicit
public/internal ranges, each falling back to the single shared range when
falsy; both forced to `None` when isolation is disabled. -/
def EnsureMetalLBIsolationStep.ranges_from_answers (addons : AddonsConfig)
    (ni : NIAnswersK8s) : Option String × Option String :=
  let pub0 := addons.lb_public_pool
  let internal0 := addons.lb_internal_pool
  let single := addons.loadbalancer
  let pub := if !pyTruthy pub0 && pyTruthy single then single else pub0
  let internal :=
    if !pyTruthy internal0 && pyTruthy single then single else internal0
  if !ni.enable_isolation then (none, none) else (pub, internal)

/-- Backend calls `EnsureMetalLBIsolationStep` can issue: create/replace of
an IPAddressPool, create/replace of an L2Advertisement, the
`get_application_names` query, and the per-application `juju config` call
setting the service annotations. -/
inductive KubeCall where
  | createPool (name : String) (addresses : List String)
  | replacePool (name : String) (addresses : List String)
  | createAdv (name : String) (pools : List String)
  | replaceAdv (name : String) (pools : List String)
  | queryApps
  | configApp (app : String) (pool : String)
  deriving DecidableEq, Repr

/-- Environment oracle for the kube/juju backends used by
`EnsureMetalLBIsolationStep`: outcome of create/replace per resource name,
the live application names, and the outcome of each `juju config` call. -/
structure KubeEnv where
  createPoolOk : String → Bool
  replacePoolResult : String → Except String Unit
  createAdvOk : String → Bool
  replaceAdvResult : String → Except String Unit
  appNames : List String
  appConfigResult : String → Except String Unit

/-- Address parsing of `_ensure_pool`:
`[r.strip() for r in cidrs_or_ranges.split(",") if r.strip()]`. -/
def parseAddresses (s : String) : List String :=
  ((s.splitOn ",").map String.trim).filter (fun r => !r.isEmpty)

/-- Model of `EnsureMetalLBIsolationStep._ensure_pool`: optimistic create,
fallback replace; if the replace also fails, raise
`K8SError("Failed to apply IPAddressPool {name}: {re}")`. -/
def EnsureMetalLBIsolationStep.ensure_pool (env : KubeEnv) (name : String)
    (cidrs_or_ranges : String) : Except String Unit × List KubeCall :=
  let addrs := parseAddresses cidrs_or_ranges
  if env.createPoolOk name then
    (Except.ok (), [KubeCall.createPool name addrs])
  else
    match env.replacePoolResult name with
    | Except.ok _ =>
      (Except.ok (), [KubeCall.createPool name addrs,
                      KubeCall.replacePool name addrs])
    | Except.error re =>
      (Except.error ("Failed to apply IPAddressPool " ++ name ++ ": " ++ re),
       [KubeCall.createPool name addrs, KubeCall.replacePool name addrs])

/-- Model of `EnsureMetalLBIsolationStep._ensure_l2adv`: same optimistic
create / fallback replace policy for the L2Advertisement resource. -/
def EnsureMetalLBIsolationStep.ensure_l2adv (env : KubeEnv) (name : String)
    (pools : List String) : Except String Unit × List KubeCall :=
  if env.createAdvOk name then
    (Except.ok (), [KubeCall.createAdv name pools])
  else
    match env.replaceAdvResult name with
    | Except.ok _ =>
      (Except.ok (), [KubeCall.createAdv name pools,
                      KubeCall.replaceAdv name pools])
    | Except.error re =>
      (Except.error ("Failed to apply L2Advertisement " ++ name ++ ": " ++ re),
       [KubeCall.createAdv name pools, KubeCall.replaceAdv name pools])

/-- Sequencing of two sub-phases inside the top-level `try` of `run`: when
the first raises, the second never executes and only the first phase's
calls were issued. -/
def seqPhase (a b : Except String Unit × List KubeCall) :
    Except String Unit × List KubeCall :=
  match a.1 with
  | Except.error e => (Except.error e, a.2)
  | Except.ok _ => (b.1, a.2 ++ b.2)

/-- One branch of `run`: when the resolved `range` is truthy, ensure the
pool and then its advertisement; a falsy range does nothing. -/
def poolPhase (env : KubeEnv) (poolName advName : String)
    (range : Option String) : Except String Unit × List KubeCall :=
  match range with
  | none => (Except.ok (), [])
  | some r =>
    if r.isEmpty then (Except.ok (), [])
    else
      seqPhase (EnsureMetalLBIsolationStep.ensure_pool env poolName r)
        (EnsureMetalLBIsolationStep.ensure_l2adv env advName [poolName])

/-- The `for app, pool in TRAEFIK_APPS.items()` loop of
`_annotate_traefik_services_via_juju`: applications absent from the live
set are skipped; a failing `juju config` call aborts the loop with its
error. -/
def annotateLoop (env : KubeEnv) :
    List (String × String) → Except String Unit × List KubeCall
  | [] => (Except.ok (), [])
  | (app, pool) :: rest =>
    if app ∈ env.appNames then
      match env.appConfigResult app with
      | Except.ok _ =>
        let r := annotateLoop env rest
        (r.1, KubeCall.configApp app pool :: r.2)
      | Except.error e => (Except.error e, [KubeCall.configApp app pool])
    else annotateLoop env rest

/-- Model of `_annotate_traefik_services_via_juju`: query the application
names, then run the loop over the static `TRAEFIK_APPS` table. -/
def annotateTraefik (env : KubeEnv) : Except String Unit × List KubeCall :=
  let r := annotateLoop env TRAEFIK_APPS
  (r.1, KubeCall.queryApps :: r.2)

/-- Model of `EnsureMetalLBIsolationStep.is_skip`: failed when the kube
client cannot be acquired; skipped when both resolved ranges are falsy;
otherwise completed.  It performs no mutation or query call. -/
def EnsureMetalLBIsolationStep.is_skip (kube : Except String Unit)
    (addons : AddonsConfig) (ni : NIAnswersK8s) : Result × List KubeCall :=
  match kube with
  | Except.error e => (⟨ResultType.failed, e⟩, [])
  | Except.ok _ =>
    let pr := EnsureMetalLBIsolationStep.ranges_from_answers addons ni
    if !pyTruthy pr.1 && !pyTruthy pr.2 then
      (⟨ResultType.skipped, ""⟩, [])
    else
      (⟨ResultType.completed, ""⟩, [])

/-- Conversion of the `try` block's outcome to the step result: an
exception becomes `Failed` with `str(e)`, success becomes `Completed`. -/
def toResult : Except String Unit × List KubeCall → Result × List KubeCall
  | (Except.error e, t) => (⟨ResultType.failed, e⟩, t)
  | (Except.ok _, t) => (⟨ResultType.completed, ""⟩, t)

/-- Model of `EnsureMetalLBIsolationStep.run`: public pool phase, internal
pool phase, then the Traefik annotation phase; the first exception is
caught at top level and returned as `Failed` with its message. -/
def EnsureMetalLBIsolationStep.run (env : KubeEnv) (addons : AddonsConfig)
    (ni : NIAnswersK8s) : Result × List KubeCall :=
  let pr := EnsureMetalLBIsolationStep.ranges_from_answers addons ni
  toResult
    (seqPhase
      (seqPhase (poolPhase env PUBLIC_POOL_NAME PUBLIC_ADV_NAME pr.1)
        (poolPhase env INTERNAL_POOL_NAME INTERNAL_ADV_NAME pr.2))
      (annotateTraefik env))

/-! ## import_network_isolation_answers (network_isolation.py) -/

def NETWORK_ISOLATION_KEY : String := "network_isolation"

/-- The parsed contents of `network-isolation.json`:
the truthiness of its `enable_isolation` key plus the rest of the document,
kept opaque as key/value pairs. -/
structure ImportedData where
  enable_isolation : Bool
  rest : List (String × String)
  deriving DecidableEq, Repr

/-- A `save_answers(client, key, value)` call; the value is the mapping
`{"network_isolation": data}` modelled as its single binding. -/
structure SaveCall where
  key : String
  value : List (String × ImportedData)
  deriving DecidableEq, Repr

/-- Model of `import_network_isolation_answers`: no-op when the file is
missing or unparsable or the enable flag is falsy; otherwise persist
`{"network_isolation": data}` under `NETWORK_ISOLATION_KEY` and return the
data.  `none` models the empty-dict return; the second component is the
list of answer-store writes performed. -/
def import_network_isolation_answers (fileExists : Bool)
    (parsed : Except String ImportedData) :
    Option ImportedData × List SaveCall :=
  if !fileExists then (none, [])
  else
    match parsed with
    | Except.error _ => (none, [])
    | Except.ok data =>
      if !data.enable_isolation then (none, [])
      else (some data, [⟨NETWORK_ISOLATION_KEY, [("network_isolation", data)]⟩])

/-! ## Pool roles (for claims quantifying over public/internal) -/

/-- The two pool roles of the isolation step. -/
inductive PoolRole where
  | public
  | internal
  deriving DecidableEq, Repr

def PoolRole.poolName : PoolRole → String
  | .public => PUBLIC_POOL_NAME
  | .internal => INTERNAL_POOL_NAME

def PoolRole.advName : PoolRole → String
  | .public => PUBLIC_ADV_NAME
  | .internal => INTERNAL_ADV_NAME

def PoolRole.rangeOf : PoolRole → Option String × Option String → Option String
  | .public, pr => pr.1
  | .internal, pr => pr.2

/-! ## Helper lemmas: the space reconciliation loop -/

/-- A benign entry is one the loop passes over without aborting: empty
subnets, already live, or a successful create. -/
def benignEntry (env : JujuEnv) (ex : List String)
    (p : String × List String) : Prop :=
  p.2 = [] ∨ p.1 ∈ ex ∨ env.addSpaceResult p.1 p.2 = Except.ok ()

theorem spacesLoop_benign_none (env : JujuEnv) (ex : List String)
    (l : List (String × List String))
    (h : ∀ p ∈ l, benignEntry env ex p) :
    (spacesLoop env ex l).1 = none := by
  induction l with
  | nil => rfl
  | cons hd tl ih =>
    obtain ⟨name, subnets⟩ := hd
    have hhd := h (name, subnets) (List.mem_cons_self _ _)
    have htl := ih (fun p hp => h p (List.mem_cons_of_mem _ hp))
    by_cases hemp : subnets.isEmpty = true
    · simp [spacesLoop, hemp, htl]
    · by_cases hmem : name ∈ ex
      · simp [spacesLoop, hemp, hmem, htl]
      · rcases hhd with h1 | h1 | h1
        · exact absurd (by simp [show subnets = [] from h1]) hemp
        · exact absurd h1 hmem
        · simp [spacesLoop, hemp, hmem, h1, htl]

theorem spacesLoop_benign_upd (env : JujuEnv) (ex : List String)
    (l : List (String × List String))
    (h : ∀ p ∈ l, benignEntry env ex p) :
    ∀ name subnets, (name, subnets) ∈ l → subnets ≠ [] → name ∈ ex →
      JujuCall.setSpaceSubnets name subnets ∈ (spacesLoop env ex l).2 := by
  induction l with
  | nil => intro name subnets hmem; simp at hmem
  | cons hd tl ih =>
    obtain ⟨hname, hsubnets⟩ := hd
    have hhd := h (hname, hsubnets) (List.mem_cons_self _ _)
    have htl := ih (fun p hp => h p (List.mem_cons_of_mem _ hp))
    intro name subnets hmem hne hlive
    rcases List.mem_cons.mp hmem with heq | htail
    · obtain ⟨e1, e2⟩ := Prod.mk.injEq .. ▸ heq
      subst e1; subst e2
      have hemp : ¬subnets.isEmpty = true := by
        simpa [List.isEmpty_iff] using hne
      simp [spacesLoop, hemp, hlive]
    · have hrec := htl name subnets htail hne hlive
      by_cases hemp : hsubnets.isEmpty = true
      · simpa [spacesLoop, hemp] using hrec
      · by_cases hm2 : hname ∈ ex
        · simp [spacesLoop, hemp, hm2]
          exact Or.inr hrec
        · rcases hhd with h1 | h1 | h1
          · exact absurd (by simp [show hsubnets = [] from h1]) hemp
          · exact absurd h1 hm2
          · simp [spacesLoop, hemp, hm2, h1]
            exact hrec

theorem spacesLoop_all_mem_none (env : JujuEnv) (ex : List String)
    (l : List (String × List String))
    (h : ∀ p ∈ l, p.2 ≠ [] → p.1 ∈ ex) :
    (spacesLoop env ex l).1 = none := by
  refine spacesLoop_benign_none env ex l (fun p hp => ?_)
  by_cases hz : p.2 = []
  · exact Or.inl hz
  · exact Or.inr (Or.inl (h p hp hz))

theorem spacesLoop_all_mem_no_add (env : JujuEnv) (ex : List String)
    (l : List (String × List String))
    (h : ∀ p ∈ l, p.2 ≠ [] → p.1 ∈ ex) :
    ∀ n s, JujuCall.addSpace n s ∉ (spacesLoop env ex l).2 := by
  induction l with
  | nil => intro n s hmem; simp [spacesLoop] at hmem
  | cons hd tl ih =>
    obtain ⟨hname, hsubnets⟩ := hd
    have htl := ih (fun p hp => h p (List.mem_cons_of_mem _ hp))
    intro n s
    by_cases hemp : hsubnets.isEmpty = true
    · simpa [spacesLoop, hemp] using htl n s
    · have hm : hname ∈ ex := by
        refine h (hname, hsubnets) (List.mem_cons_self _ _) ?_
        simpa [List.isEmpty_iff] using hemp
      simp [spacesLoop, hemp, hm]
      exact htl n s

theorem spacesLoop_all_mem_upd (env : JujuEnv) (ex : List String)
    (l : List (String × List String))
    (h : ∀ p ∈ l, p.2 ≠ [] → p.1 ∈ ex) :
    ∀ name subnets, (name, subnets) ∈ l → subnets ≠ [] →
      JujuCall.setSpaceSubnets name subnets ∈ (spacesLoop env ex l).2 := by
  intro name subnets hmem hne
  refine spacesLoop_benign_upd env ex l (fun p hp => ?_) name subnets hmem hne
    (h (name, subnets) hmem hne)
  by_cases hz : p.2 = []
  · exact Or.inl hz
  · exact Or.inr (Or.inl (h p hp hz))

theorem spacesLoop_none_mem (env : JujuEnv) (ex : List String)
    (l : List (String × List String))
    (hnone : (spacesLoop env ex l).1 = none) :
    ∀ p ∈ l, p.2 ≠ [] →
      p.1 ∈ ex ∨ JujuCall.addSpace p.1 p.2 ∈ (spacesLoop env ex l).2 := by
  induction l with
  | nil => intro p hp; simp at hp
  | cons hd tl ih =>
    obtain ⟨hname, hsubnets⟩ := hd
    intro p hp hpne
    by_cases hemp : hsubnets.isEmpty = true
    · rw [show spacesLoop env ex ((hname, hsubnets) :: tl) = spacesLoop env ex tl
          from by simp [spacesLoop, hemp]] at hnone ⊢
      rcases List.mem_cons.mp hp with heq | htail
      · subst heq
        exact absurd (List.isEmpty_iff.mp hemp) hpne
      · exact ih hnone p htail hpne
    · by_cases hm : hname ∈ ex
      · have hloop : spacesLoop env ex ((hname, hsubnets) :: tl)
            = ((spacesLoop env ex tl).1,
               JujuCall.setSpaceSubnets hname hsubnets :: (spacesLoop env ex tl).2) := by
          simp [spacesLoop, hemp, hm]
        rw [hloop] at hnone ⊢
        rcases List.mem_cons.mp hp with heq | htail
        · subst heq; exact Or.inl hm
        · rcases ih hnone p htail hpne with hc | hc
          · exact Or.inl hc
          · exact Or.inr (List.mem_cons_of_mem _ hc)
      · rcases hadd : env.addSpaceResult hname hsubnets with e | u
        · have : (spacesLoop env ex ((hname, hsubnets) :: tl)).1
              = some ("Failed to ensure space " ++ hname ++ ": " ++ e) := by
            simp [spacesLoop, hemp, hm, hadd]
          rw [this] at hnone; cases hnone
        · have hloop : spacesLoop env ex ((hname, hsubnets) :: tl)
              = ((spacesLoop env ex tl).1,
                 JujuCall.addSpace hname hsubnets :: (spacesLoop env ex tl).2) := by
            simp [spacesLoop, hemp, hm, hadd]
          rw [hloop] at hnone ⊢
          rcases List.mem_cons.mp hp with heq | htail
          · subst heq
            exact Or.inr (List.mem_cons_self _ _)
          · rcases ih hnone p htail hpne with hc | hc
            · exact Or.inl hc
            · exact Or.inr (List.mem_cons_of_mem _ hc)

theorem spacesLoop_add_origin (env : JujuEnv) (ex : List String)
    (l : List (String × List String)) :
    ∀ n s, JujuCall.addSpace n s ∈ (spacesLoop env ex l).2 →
      (n, s) ∈ l ∧ s ≠ [] := by
  induction l with
  | nil => intro n s hmem; simp [spacesLoop] at hmem
  | cons hd tl ih =>
    obtain ⟨hname, hsubnets⟩ := hd
    intro n s hmem
    by_cases hemp : hsubnets.isEmpty = true
    · rw [show spacesLoop env ex ((hname, hsubnets) :: tl) = spacesLoop env ex tl
          from by simp [spacesLoop, hemp]] at hmem
      obtain ⟨h1, h2⟩ := ih n s hmem
      exact ⟨List.mem_cons_of_mem _ h1, h2⟩
    · by_cases hm : hname ∈ ex
      · have hloop : spacesLoop env ex ((hname, hsubnets) :: tl)
            = ((spacesLoop env ex tl).1,
               JujuCall.setSpaceSubnets hname hsubnets :: (spacesLoop env ex tl).2) := by
          simp [spacesLoop, hemp, hm]
        rw [hloop] at hmem
        rcases List.mem_cons.mp hmem with heq | htail
        · cases heq
        · obtain ⟨h1, h2⟩ := ih n s htail
          exact ⟨List.mem_cons_of_mem _ h1, h2⟩
      · rcases hadd : env.addSpaceResult hname hsubnets with e | u
        · have hloop : spacesLoop env ex ((hname, hsubnets) :: tl)
              = (some ("Failed to ensure space " ++ hname ++ ": " ++ e),
                 [JujuCall.addSpace hname hsubnets]) := by
            simp [spacesLoop, hemp, hm, hadd]
          rw [hloop] at hmem
          rcases List.mem_cons.mp hmem with heq | htail
          · cases heq
            refine ⟨List.mem_cons_self _ _, ?_⟩
            simpa [List.isEmpty_iff] using hemp
          · simp at htail
        · have hloop : spacesLoop env ex ((hname, hsubnets) :: tl)
              = ((spacesLoop env ex tl).1,
                 JujuCall.addSpace hname hsubnets :: (spacesLoop env ex tl).2) := by
            simp [spacesLoop, hemp, hm, hadd]
          rw [hloop] at hmem
          rcases List.mem_cons.mp hmem with heq | htail
          · cases heq
            refine ⟨List.mem_cons_self _ _, ?_⟩
            simpa [List.isEmpty_iff] using hemp
          · obtain ⟨h1, h2⟩ := ih n s htail
            exact ⟨List.mem_cons_of_mem _ h1, h2⟩

theorem spacesLoop_append_benign (env : JujuEnv) (ex : List String)
    (pre rest : List (String × List String))
    (hpre : ∀ p ∈ pre, benignEntry env ex p) :
    (spacesLoop env ex (pre ++ rest)).1 = (spacesLoop env ex rest).1 ∧
    ∀ c ∈ (spacesLoop env ex rest).2, c ∈ (spacesLoop env ex (pre ++ rest)).2 := by
  induction pre with
  | nil => exact ⟨rfl, fun c hc => hc⟩
  | cons hd tl ih =>
    obtain ⟨hname, hsubnets⟩ := hd
    have hhd := hpre (hname, hsubnets) (List.mem_cons_self _ _)
    obtain ⟨ih1, ih2⟩ := ih (fun p hp => hpre p (List.mem_cons_of_mem _ hp))
    by_cases hemp : hsubnets.isEmpty = true
    · rw [show spacesLoop env ex (((hname, hsubnets) :: tl) ++ rest)
          = spacesLoop env ex (tl ++ rest) from by simp [spacesLoop, hemp]]
      exact ⟨ih1, ih2⟩
    · by_cases hm : hname ∈ ex
      · have hloop : spacesLoop env ex (((hname, hsubnets) :: tl) ++ rest)
            = ((spacesLoop env ex (tl ++ rest)).1,
               JujuCall.setSpaceSubnets hname hsubnets
                 :: (spacesLoop env ex (tl ++ rest)).2) := by
          simp [spacesLoop, hemp, hm]
        rw [hloop]
        exact ⟨ih1, fun c hc => List.mem_cons_of_mem _ (ih2 c hc)⟩
      · rcases hhd with h1 | h1 | h1
        · exact absurd (by simp [show hsubnets = [] from h1]) hemp
        · exact absurd h1 hm
        · have hloop : spacesLoop env ex (((hname, hsubnets) :: tl) ++ rest)
              = ((spacesLoop env ex (tl ++ rest)).1,
                 JujuCall.addSpace hname hsubnets
                   :: (spacesLoop env ex (tl ++ rest)).2) := by
            simp [spacesLoop, hemp, hm, h1]
          rw [hloop]
          exact ⟨ih1, fun c hc => List.mem_cons_of_mem _ (ih2 c hc)⟩

/-! ## Helper lemmas: the run protocol of EnsureJujuSpacesStep -/

theorem Juju_run_of_none (cfg : SpacesConfig) (env : JujuEnv) (ex : List String)
    (hq : env.spacesQuery = Except.ok ex)
    (hn : (spacesLoop env ex cfg.spaces).1 = none) :
    EnsureJujuSpacesStep.run cfg env
      = (⟨ResultType.completed, ""⟩,
         JujuCall.querySpaces :: (spacesLoop env ex cfg.spaces).2
           ++ [JujuCall.setDefaultSpace]) := by
  rcases h : spacesLoop env ex cfg.spaces with ⟨fst, calls⟩
  rw [h] at hn
  simp only at hn
  subst hn
  simp [EnsureJujuSpacesStep.run, hq, h]

theorem Juju_run_of_some (cfg : SpacesConfig) (env : JujuEnv) (ex : List String)
    (msg : String)
    (hq : env.spacesQuery = Except.ok ex)
    (hs : (spacesLoop env ex cfg.spaces).1 = some msg) :
    EnsureJujuSpacesStep.run cfg env
      = (⟨ResultType.failed, msg⟩,
         JujuCall.querySpaces :: (spacesLoop env ex cfg.spaces).2) := by
  rcases h : spacesLoop env ex cfg.spaces with ⟨fst, calls⟩
  rw [h] at hs
  simp only at hs
  subst hs
  simp [EnsureJujuSpacesStep.run, hq, h]

theorem Juju_run_completed_none (cfg : SpacesConfig) (env : JujuEnv)
    (ex : List String)
    (hq : env.spacesQuery = Except.ok ex)
    (hc : (EnsureJujuSpacesStep.run cfg env).1.result_type
      = ResultType.completed) :
    (spacesLoop env ex cfg.spaces).1 = none := by
  rcases h : (spacesLoop env ex cfg.spaces).1 with _ | msg
  · rfl
  · rw [Juju_run_of_some cfg env ex msg hq h] at hc
    cases hc

/-! ## Helper lemmas: pool phases and the annotation loop -/

theorem pyTruthy_iff (o : Option String) :
    pyTruthy o = true ↔ ∃ s, o = some s ∧ s.isEmpty = false := by
  cases o with
  | none => simp [pyTruthy]
  | some s => simp [pyTruthy]


theorem ensure_pool_calls (env : KubeEnv) (pn rr : String) :
    ∀ c ∈ (EnsureMetalLBIsolationStep.ensure_pool env pn rr).2,
      c = KubeCall.createPool pn (parseAddresses rr) ∨
      c = KubeCall.replacePool pn (parseAddresses rr) := by
  intro c hc
  unfold EnsureMetalLBIsolationStep.ensure_pool at hc
  by_cases hok : env.createPoolOk pn = true
  · simp [hok] at hc
    exact Or.inl hc
  · rcases hrep : env.replacePoolResult pn with re | u <;>
      simp [Bool.not_eq_true] at hok <;>
      simp [hok, hrep] at hc <;> tauto

theorem ensure_l2adv_calls (env : KubeEnv) (an : String) (pools : List String) :
    ∀ c ∈ (EnsureMetalLBIsolationStep.ensure_l2adv env an pools).2,
      c = KubeCall.createAdv an pools ∨ c = KubeCall.replaceAdv an pools := by
  intro c hc
  unfold EnsureMetalLBIsolationStep.ensure_l2adv at hc
  by_cases hok : env.createAdvOk an = true
  · simp [hok] at hc
    exact Or.inl hc
  · rcases hra : env.replaceAdvResult an with re | u <;>
      simp [Bool.not_eq_true] at hok <;>
      simp [hok, hra] at hc <;> tauto

theorem seqPhase_of_ok (a b : Except String Unit × List KubeCall)
    (h : a.1 = Except.ok ()) : seqPhase a b = (b.1, a.2 ++ b.2) := by
  simp [seqPhase, h]

theorem seqPhase_of_err (a b : Except String Unit × List KubeCall) (e : String)
    (h : a.1 = Except.error e) : seqPhase a b = (Except.error e, a.2) := by
  simp [seqPhase, h]

theorem seqPhase_ok_parts (a b : Except String Unit × List KubeCall)
    (h : (seqPhase a b).1 = Except.ok ()) :
    a.1 = Except.ok () ∧ b.1 = Except.ok () := by
  rcases ha : a.1 with e | u
  · simp [seqPhase, ha] at h
  · cases u
    refine ⟨rfl, ?_⟩
    simpa [seqPhase, ha] using h

theorem seqPhase_calls (a b : Except String Unit × List KubeCall) :
    ∀ c ∈ (seqPhase a b).2, c ∈ a.2 ∨ c ∈ b.2 := by
  intro c hc
  rcases ha : a.1 with e | u
  · rw [seqPhase_of_err a b e ha] at hc
    exact Or.inl hc
  · cases u
    rw [seqPhase_of_ok a b ha] at hc
    simpa using List.mem_append.mp hc

theorem toResult_of_ok (p : Except String Unit × List KubeCall)
    (h : p.1 = Except.ok ()) :
    toResult p = (⟨ResultType.completed, ""⟩, p.2) := by
  rcases p with ⟨fst, t⟩
  simp only at h
  subst h
  rfl

theorem toResult_of_err (p : Except String Unit × List KubeCall) (e : String)
    (h : p.1 = Except.error e) :
    toResult p = (⟨ResultType.failed, e⟩, p.2) := by
  rcases p with ⟨fst, t⟩
  simp only at h
  subst h
  rfl

theorem toResult_trace (p : Except String Unit × List KubeCall) :
    (toResult p).2 = p.2 := by
  rcases p with ⟨fst, t⟩
  cases fst <;> rfl

theorem toResult_completed_ok (p : Except String Unit × List KubeCall)
    (h : (toResult p).1.result_type = ResultType.completed) :
    p.1 = Except.ok () := by
  rcases p with ⟨fst, t⟩
  rcases fst with e | u
  · simp [toResult] at h
  · cases u
    rfl

theorem poolPhase_pool_fail (env : KubeEnv) (pn an rr re : String)
    (hne : rr.isEmpty = false)
    (hc : env.createPoolOk pn = false)
    (hrep : env.replacePoolResult pn = Except.error re) :
    poolPhase env pn an (some rr)
      = (Except.error ("Failed to apply IPAddressPool " ++ pn ++ ": " ++ re),
         [KubeCall.createPool pn (parseAddresses rr),
          KubeCall.replacePool pn (parseAddresses rr)]) := by
  simp [poolPhase, hne, seqPhase, EnsureMetalLBIsolationStep.ensure_pool,
    hc, hrep]

theorem poolPhase_all_ok (env : KubeEnv) (pn an rr : String)
    (hne : rr.isEmpty = false)
    (hc : env.createPoolOk pn = false)
    (hrep : env.replacePoolResult pn = Except.ok ())
    (hca : env.createAdvOk an = false)
    (hra : env.replaceAdvResult an = Except.ok ()) :
    poolPhase env pn an (some rr)
      = (Except.ok (),
         [KubeCall.createPool pn (parseAddresses rr),
          KubeCall.replacePool pn (parseAddresses rr),
          KubeCall.createAdv an [pn],
          KubeCall.replaceAdv an [pn]]) := by
  simp [poolPhase, hne, seqPhase, EnsureMetalLBIsolationStep.ensure_pool,
    EnsureMetalLBIsolationStep.ensure_l2adv, hc, hrep, hca, hra]

theorem poolPhase_falsy (env : KubeEnv) (pn an : String) (r : Option String)
    (hf : pyTruthy r = false) :
    poolPhase env pn an r = (Except.ok (), []) := by
  cases r with
  | none => rfl
  | some s =>
    have hs : s.isEmpty = true := by simpa [pyTruthy] using hf
    simp [poolPhase, hs]

theorem poolPhase_calls (env : KubeEnv) (pn an : String) (r : Option String) :
    ∀ c ∈ (poolPhase env pn an r).2,
      (∃ a, c = KubeCall.createPool pn a) ∨
      (∃ a, c = KubeCall.replacePool pn a) ∨
      (∃ ps, c = KubeCall.createAdv an ps) ∨
      (∃ ps, c = KubeCall.replaceAdv an ps) := by
  intro c hc
  cases r with
  | none => simp [poolPhase] at hc
  | some rr =>
    by_cases hne : rr.isEmpty = true
    · simp [poolPhase, hne] at hc
    · rw [show poolPhase env pn an (some rr)
          = seqPhase (EnsureMetalLBIsolationStep.ensure_pool env pn rr)
              (EnsureMetalLBIsolationStep.ensure_l2adv env an [pn])
          from by simp [poolPhase, hne]] at hc
      rcases seqPhase_calls _ _ c hc with h | h
      · rcases ensure_pool_calls env pn rr c h with h1 | h1
        · exact Or.inl ⟨_, h1⟩
        · exact Or.inr (Or.inl ⟨_, h1⟩)
      · rcases ensure_l2adv_calls env an [pn] c h with h1 | h1
        · exact Or.inr (Or.inr (Or.inl ⟨_, h1⟩))
        · exact Or.inr (Or.inr (Or.inr ⟨_, h1⟩))

theorem annotateLoop_ok (env : KubeEnv) (l : List (String × String))
    (h : ∀ a, env.appConfigResult a = Except.ok ()) :
    (annotateLoop env l).1 = Except.ok () := by
  induction l with
  | nil => rfl
  | cons hd tl ih =>
    obtain ⟨app, pool⟩ := hd
    by_cases hm : app ∈ env.appNames
    · simp [annotateLoop, hm, h app, ih]
    · simpa [annotateLoop, hm] using ih

theorem annotateLoop_mem (env : KubeEnv) (l : List (String × String))
    (h : ∀ a, env.appConfigResult a = Except.ok ()) :
    ∀ p ∈ l, p.1 ∈ env.appNames →
      KubeCall.configApp p.1 p.2 ∈ (annotateLoop env l).2 := by
  induction l with
  | nil => intro p hp; simp at hp
  | cons hd tl ih =>
    obtain ⟨app, pool⟩ := hd
    intro p hp hpm
    rcases List.mem_cons.mp hp with heq | htail
    · subst heq
      simp [annotateLoop, hpm, h app]
    · by_cases hm : app ∈ env.appNames
      · simp [annotateLoop, hm, h app]
        exact Or.inr (ih p htail hpm)
      · simpa [annotateLoop, hm] using ih p htail hpm

theorem annotateLoop_shape (env : KubeEnv) (l : List (String × String)) :
    ∀ c ∈ (annotateLoop env l).2, ∃ a p, c = KubeCall.configApp a p := by
  induction l with
  | nil => intro c hc; simp [annotateLoop] at hc
  | cons hd tl ih =>
    obtain ⟨app, pool⟩ := hd
    intro c hc
    by_cases hm : app ∈ env.appNames
    · rcases hcfg : env.appConfigResult app with e | u
      · simp [annotateLoop, hm, hcfg] at hc
        exact ⟨app, pool, hc⟩
      · simp [annotateLoop, hm, hcfg] at hc
        rcases hc with hc | hc
        · exact ⟨app, pool, hc⟩
        · exact ih c hc
    · simp [annotateLoop, hm] at hc
      exact ih c hc

theorem annotateTraefik_calls (env : KubeEnv) :
    ∀ c ∈ (annotateTraefik env).2,
      c = KubeCall.queryApps ∨ ∃ a p, c = KubeCall.configApp a p := by
  intro c hc
  unfold annotateTraefik at hc
  rcases List.mem_cons.mp hc with h | h
  · exact Or.inl h
  · exact Or.inr (annotateLoop_shape env TRAEFIK_APPS c h)

theorem annotateTraefik_ok (env : KubeEnv)
    (h : ∀ a, env.appConfigResult a = Except.ok ()) :
    (annotateTraefik env).1 = Except.ok () := by
  unfold annotateTraefik
  simpa using annotateLoop_ok env TRAEFIK_APPS h

theorem annotateTraefik_mem (env : KubeEnv)
    (h : ∀ a, env.appConfigResult a = Except.ok ()) :
    ∀ p ∈ TRAEFIK_APPS, p.1 ∈ env.appNames →
      KubeCall.configApp p.1 p.2 ∈ (annotateTraefik env).2 := by
  intro p hp hpm
  unfold annotateTraefik
  exact List.mem_cons_of_mem _ (annotateLoop_mem env TRAEFIK_APPS h p hp hpm)

/-! ## Helper lemmas: the run protocol of EnsureMetalLBIsolationStep -/

theorem MetalLB_run_eq (env : KubeEnv) (addons : AddonsConfig)
    (ni : NIAnswersK8s) :
    EnsureMetalLBIsolationStep.run env addons ni
      = toResult (seqPhase
          (seqPhase
            (poolPhase env PUBLIC_POOL_NAME PUBLIC_ADV_NAME
              (EnsureMetalLBIsolationStep.ranges_from_answers addons ni).1)
            (poolPhase env INTERNAL_POOL_NAME INTERNAL_ADV_NAME
              (EnsureMetalLBIsolationStep.ranges_from_answers addons ni).2))
          (annotateTraefik env)) := rfl

theorem MetalLB_run_completed_parts (env : KubeEnv) (addons : AddonsConfig)
    (ni : NIAnswersK8s)
    (h : (EnsureMetalLBIsolationStep.run env addons ni).1.result_type
      = ResultType.completed) :
    (poolPhase env PUBLIC_POOL_NAME PUBLIC_ADV_NAME
      (EnsureMetalLBIsolationStep.ranges_from_answers addons ni).1).1
        = Except.ok () ∧
    (poolPhase env INTERNAL_POOL_NAME INTERNAL_ADV_NAME
      (EnsureMetalLBIsolationStep.ranges_from_answers addons ni).2).1
        = Except.ok () ∧
    (annotateTraefik env).1 = Except.ok () := by
  rw [MetalLB_run_eq] at h
  have h1 := toResult_completed_ok _ h
  have h2 := seqPhase_ok_parts _ _ h1
  have h3 := seqPhase_ok_parts _ _ h2.1
  exact ⟨h3.1, h3.2, h2.2⟩

theorem MetalLB_run_calls (env : KubeEnv) (addons : AddonsConfig)
    (ni : NIAnswersK8s) :
    ∀ c ∈ (EnsureMetalLBIsolationStep.run env addons ni).2,
      c ∈ (poolPhase env PUBLIC_POOL_NAME PUBLIC_ADV_NAME
            (EnsureMetalLBIsolationStep.ranges_from_answers addons ni).1).2 ∨
      c ∈ (poolPhase env INTERNAL_POOL_NAME INTERNAL_ADV_NAME
            (EnsureMetalLBIsolationStep.ranges_from_answers addons ni).2).2 ∨
      c ∈ (annotateTraefik env).2 := by
  intro c hc
  rw [MetalLB_run_eq, toResult_trace] at hc
  rcases seqPhase_calls _ _ c hc with h | h
  · rcases seqPhase_calls _ _ c h with h1 | h1
    · exact Or.inl h1
    · exact Or.inr (Or.inl h1)
  · exact Or.inr (Or.inr h)

theorem MetalLB_run_of_parts (env : KubeEnv) (addons : AddonsConfig)
    (ni : NIAnswersK8s)
    (h1 : (poolPhase env PUBLIC_POOL_NAME PUBLIC_ADV_NAME
      (EnsureMetalLBIsolationStep.ranges_from_answers addons ni).1).1
        = Except.ok ())
    (h2 : (poolPhase env INTERNAL_POOL_NAME INTERNAL_ADV_NAME
      (EnsureMetalLBIsolationStep.ranges_from_answers addons ni).2).1
        = Except.ok ())
    (h3 : (annotateTraefik env).1 = Except.ok ()) :
    EnsureMetalLBIsolationStep.run env addons ni
      = (⟨ResultType.completed, ""⟩,
         (poolPhase env PUBLIC_POOL_NAME PUBLIC_ADV_NAME
           (EnsureMetalLBIsolationStep.ranges_from_answers addons ni).1).2
         ++ (poolPhase env INTERNAL_POOL_NAME INTERNAL_ADV_NAME
           (EnsureMetalLBIsolationStep.ranges_from_answers addons ni).2).2
         ++ (annotateTraefik env).2) := by
  rw [MetalLB_run_eq, seqPhase_of_ok _ _ h1]
  rw [show seqPhase ((poolPhase env INTERNAL_POOL_NAME INTERNAL_ADV_NAME
      (EnsureMetalLBIsolationStep.ranges_from_answers addons ni).2).1,
      (poolPhase env PUBLIC_POOL_NAME PUBLIC_ADV_NAME
        (EnsureMetalLBIsolationStep.ranges_from_answers addons ni).1).2
      ++ (poolPhase env INTERNAL_POOL_NAME INTERNAL_ADV_NAME
        (EnsureMetalLBIsolationStep.ranges_from_answers addons ni).2).2)
      (annotateTraefik env)
      = ((annotateTraefik env).1,
         ((poolPhase env PUBLIC_POOL_NAME PUBLIC_ADV_NAME
           (EnsureMetalLBIsolationStep.ranges_from_answers addons ni).1).2
         ++ (poolPhase env INTERNAL_POOL_NAME INTERNAL_ADV_NAME
           (EnsureMetalLBIsolationStep.ranges_from_answers addons ni).2).2)
         ++ (annotateTraefik env).2)
    from seqPhase_of_ok _ _ h2]
  rw [h3]
  simp [toResult, List.append_assoc]

theorem ensure_pool_mem_create (env : KubeEnv) (pn rr : String) :
    KubeCall.createPool pn (parseAddresses rr)
      ∈ (EnsureMetalLBIsolationStep.ensure_pool env pn rr).2 := by
  unfold EnsureMetalLBIsolationStep.ensure_pool
  by_cases hok : env.createPoolOk pn = true
  · simp [hok]
  · rcases hrep : env.replacePoolResult pn with re | u <;>
      simp [Bool.not_eq_true] at hok <;> simp [hok, hrep]

theorem ensure_l2adv_mem_create (env : KubeEnv) (an : String)
    (pools : List String) :
    KubeCall.createAdv an pools
      ∈ (EnsureMetalLBIsolationStep.ensure_l2adv env an pools).2 := by
  unfold EnsureMetalLBIsolationStep.ensure_l2adv
  by_cases hok : env.createAdvOk an = true
  · simp [hok]
  · rcases hra : env.replaceAdvResult an with re | u <;>
      simp [Bool.not_eq_true] at hok <;> simp [hok, hra]

theorem poolPhase_seq (env : KubeEnv) (pn an rr : String)
    (hne : rr.isEmpty = false) :
    poolPhase env pn an (some rr)
      = seqPhase (EnsureMetalLBIsolationStep.ensure_pool env pn rr)
          (EnsureMetalLBIsolationStep.ensure_l2adv env an [pn]) := by
  simp [poolPhase, hne]

theorem poolPhase_ok_mem (env : KubeEnv) (pn an rr : String)
    (hne : rr.isEmpty = false)
    (hok : (poolPhase env pn an (some rr)).1 = Except.ok ()) :
    KubeCall.createPool pn (parseAddresses rr)
      ∈ (poolPhase env pn an (some rr)).2 ∧
    KubeCall.createAdv an [pn] ∈ (poolPhase env pn an (some rr)).2 := by
  rw [poolPhase_seq env pn an rr hne] at hok ⊢
  obtain ⟨hp, ha⟩ := seqPhase_ok_parts _ _ hok
  rw [seqPhase_of_ok _ _ hp]
  constructor
  · exact List.mem_append_left _ (ensure_pool_mem_create env pn rr)
  · exact List.mem_append_right _ (ensure_l2adv_mem_create env an [pn])

theorem poolPhase_createPool_origin (env : KubeEnv) (pn an : String)
    (r : Option String) (n : String) (a : List String)
    (h : KubeCall.createPool n a ∈ (poolPhase env pn an r).2) :
    ∃ rr, r = some rr ∧ rr.isEmpty = false ∧ n = pn
      ∧ a = parseAddresses rr := by
  cases r with
  | none => simp [poolPhase] at h
  | some rr =>
    by_cases hne : rr.isEmpty = true
    · simp [poolPhase, hne] at h
    · have hne' : rr.isEmpty = false := by simpa using hne
      refine ⟨rr, rfl, hne', ?_⟩
      rw [poolPhase_seq env pn an rr hne'] at h
      rcases seqPhase_calls _ _ _ h with h1 | h1
      · rcases ensure_pool_calls env pn rr _ h1 with h2 | h2
        · injection h2 with e1 e2
          exact ⟨e1, e2⟩
        · simp at h2
      · rcases ensure_l2adv_calls env an [pn] _ h1 with h2 | h2 <;> simp at h2

/-- Behaviour of a pool phase against a backend that already holds the
resources this phase ensures: the optimistic create fails, the fallback
replace succeeds, and the phase still completes. -/
theorem second_pool_phase (envK1 envK2 : KubeEnv) (pn an : String)
    (r : Option String) (runTrace : List KubeCall)
    (h1 : (poolPhase envK1 pn an r).1 = Except.ok ())
    (hincl : ∀ c ∈ (poolPhase envK1 pn an r).2, c ∈ runTrace)
    (hpc : ∀ a, KubeCall.createPool pn a ∈ runTrace →
      envK2.createPoolOk pn = false)
    (hpr : ∀ a, KubeCall.createPool pn a ∈ runTrace →
      envK2.replacePoolResult pn = Except.ok ())
    (hac : ∀ p, KubeCall.createAdv an p ∈ runTrace →
      envK2.createAdvOk an = false)
    (har : ∀ p, KubeCall.createAdv an p ∈ runTrace →
      envK2.replaceAdvResult an = Except.ok ()) :
    (poolPhase envK2 pn an r).1 = Except.ok () ∧
    ∀ a, KubeCall.createPool pn a ∈ (poolPhase envK1 pn an r).2 →
      KubeCall.replacePool pn a ∈ (poolPhase envK2 pn an r).2 := by
  cases ht : pyTruthy r with
  | false =>
    constructor
    · rw [poolPhase_falsy envK2 pn an r ht]
    · intro a hmem
      obtain ⟨rr, hrr, hne, _, _⟩ :=
        poolPhase_createPool_origin envK1 pn an r pn a hmem
      have htrue : pyTruthy r = true := by
        rw [hrr]
        simp [pyTruthy, hne]
      rw [ht] at htrue
      cases htrue
  | true =>
    obtain ⟨rr, hrr, hne⟩ := (pyTruthy_iff r).mp ht
    subst hrr
    obtain ⟨hcr, hadv⟩ := poolPhase_ok_mem envK1 pn an rr hne h1
    have hc2 := hpc (parseAddresses rr) (hincl _ hcr)
    have hrep2 := hpr (parseAddresses rr) (hincl _ hcr)
    have hca2 := hac [pn] (hincl _ hadv)
    have hra2 := har [pn] (hincl _ hadv)
    rw [poolPhase_all_ok envK2 pn an rr hne hc2 hrep2 hca2 hra2]
    refine ⟨rfl, ?_⟩
    intro a hmem
    obtain ⟨rr2, hrr2, _, _, ha⟩ :=
      poolPhase_createPool_origin envK1 pn an (some rr) pn a hmem
    obtain ⟨⟩ : rr2 = rr := by
      injection hrr2 with h
      exact h.symm
    subst ha
    simp

theorem MetalLB_run_pub_fail (env : KubeEnv) (addons : AddonsConfig)
    (ni : NIAnswersK8s) (e : String)
    (h : (poolPhase env PUBLIC_POOL_NAME PUBLIC_ADV_NAME
      (EnsureMetalLBIsolationStep.ranges_from_answers addons ni).1).1
        = Except.error e) :
    EnsureMetalLBIsolationStep.run env addons ni
      = (⟨ResultType.failed, e⟩,
         (poolPhase env PUBLIC_POOL_NAME PUBLIC_ADV_NAME
           (EnsureMetalLBIsolationStep.ranges_from_answers addons ni).1).2) := by
  rw [MetalLB_run_eq, seqPhase_of_err _ _ e h, seqPhase_of_err _ _ e rfl]
  rfl

theorem MetalLB_run_int_fail (env : KubeEnv) (addons : AddonsConfig)
    (ni : NIAnswersK8s) (e : String)
    (hp : (poolPhase env PUBLIC_POOL_NAME PUBLIC_ADV_NAME
      (EnsureMetalLBIsolationStep.ranges_from_answers addons ni).1).1
        = Except.ok ())
    (h : (poolPhase env INTERNAL_POOL_NAME INTERNAL_ADV_NAME
      (EnsureMetalLBIsolationStep.ranges_from_answers addons ni).2).1
        = Except.error e) :
    EnsureMetalLBIsolationStep.run env addons ni
      = (⟨ResultType.failed, e⟩,
         (poolPhase env PUBLIC_POOL_NAME PUBLIC_ADV_NAME
           (EnsureMetalLBIsolationStep.ranges_from_answers addons ni).1).2
         ++ (poolPhase env INTERNAL_POOL_NAME INTERNAL_ADV_NAME
           (EnsureMetalLBIsolationStep.ranges_from_answers addons ni).2).2) := by
  rw [MetalLB_run_eq, seqPhase_of_ok _ _ hp]
  rw [seqPhase_of_err
    ((poolPhase env INTERNAL_POOL_NAME INTERNAL_ADV_NAME
        (EnsureMetalLBIsolationStep.ranges_from_answers addons ni).2).1,
      (poolPhase env PUBLIC_POOL_NAME PUBLIC_ADV_NAME
        (EnsureMetalLBIsolationStep.ranges_from_answers addons ni).1).2
      ++ (poolPhase env INTERNAL_POOL_NAME INTERNAL_ADV_NAME
        (EnsureMetalLBIsolationStep.ranges_from_answers addons ni).2).2)
    (annotateTraefik env) e h]
  rfl

/-! ## Concrete configurations and environments used by witnesses and
counterexamples -/

def wCfg : SpacesConfig := ⟨true, [("management", ["10.0.0.0/24"])]⟩

def wCfg2 : SpacesConfig :=
  ⟨true, [("management", ["10.0.0.0/24"]), ("storage", ["10.3.0.0/24"])]⟩

def wEnvQueryFail : JujuEnv :=
  ⟨Except.error "connection refused", fun _ _ => Except.ok (),
   fun _ _ => Except.ok (), Except.ok ()⟩

def wEnvAddFail : JujuEnv :=
  ⟨Except.ok [], fun _ _ => Except.ok (),
   fun _ _ => Except.error "add-space rejected", Except.ok ()⟩

def wEnvMixed : JujuEnv :=
  ⟨Except.ok ["management"], fun _ _ => Except.error "unsupported verb",
   fun _ _ => Except.ok (), Except.error "model-config rejected"⟩

def wAddonsShared : AddonsConfig := ⟨none, none, some "10.20.0.0/24"⟩

def wNiOn : NIAnswersK8s := ⟨true⟩

/-! ## Claim C6 -/

/-- C6: if the query of the live space set fails during
`EnsureJujuSpacesStep.run`, the step returns `Failed` immediately and the
only call of that invocation is the query itself: no space create/update
command and no default-space binding command has been issued. -/
theorem C6_query_failure_fails_fast (cfg : SpacesConfig) (env : JujuEnv)
    (e : String) (h : env.spacesQuery = Except.error e) :
    (EnsureJujuSpacesStep.run cfg env).1.result_type = ResultType.failed ∧
    (EnsureJujuSpacesStep.run cfg env).2 = [JujuCall.querySpaces] := by
  constructor <;> simp [EnsureJujuSpacesStep.run, h]

/-- Witness for C6 at a concrete configuration and environment. -/
theorem C6_witness :
    (EnsureJujuSpacesStep.run wCfg wEnvQueryFail).1.result_type
      = ResultType.failed ∧
    (EnsureJujuSpacesStep.run wCfg wEnvQueryFail).2 = [JujuCall.querySpaces] :=
  C6_query_failure_fails_fast wCfg wEnvQueryFail "connection refused" rfl

/-! ## Claim C7 -/

/-- C7: range resolution of `EnsureMetalLBIsolationStep`.  When isolation
is enabled the resolved public (resp. internal) range equals the explicit
answer when that answer is set (truthy), otherwise the single shared range
when one is configured; when only the shared range is configured both
resolved ranges equal it; when isolation is disabled both resolved ranges
are absent regardless of the configured answers. -/
theorem C7_range_resolution (addons : AddonsConfig) (ni : NIAnswersK8s) :
    (ni.enable_isolation = false →
      EnsureMetalLBIsolationStep.ranges_from_answers addons ni
        = (none, none)) ∧
    (ni.enable_isolation = true →
      (pyTruthy addons.lb_public_pool = true →
        (EnsureMetalLBIsolationStep.ranges_from_answers addons ni).1
          = addons.lb_public_pool) ∧
      (pyTruthy addons.lb_public_pool = false →
        pyTruthy addons.loadbalancer = true →
        (EnsureMetalLBIsolationStep.ranges_from_answers addons ni).1
          = addons.loadbalancer) ∧
      (pyTruthy addons.lb_internal_pool = true →
        (EnsureMetalLBIsolationStep.ranges_from_answers addons ni).2
          = addons.lb_internal_pool) ∧
      (pyTruthy addons.lb_internal_pool = false →
        pyTruthy addons.loadbalancer = true →
        (EnsureMetalLBIsolationStep.ranges_from_answers addons ni).2
          = addons.loadbalancer) ∧
      (pyTruthy addons.lb_public_pool = false →
        pyTruthy addons.lb_internal_pool = false →
        pyTruthy addons.loadbalancer = true →
        EnsureMetalLBIsolationStep.ranges_from_answers addons ni
          = (addons.loadbalancer, addons.loadbalancer))) := by
  constructor
  · intro h
    simp [EnsureMetalLBIsolationStep.ranges_from_answers, h]
  · intro h
    refine ⟨?_, ?_, ?_, ?_, ?_⟩
    · intro h1
      simp [EnsureMetalLBIsolationStep.ranges_from_answers, h, h1]
    · intro h1 h2
      simp [EnsureMetalLBIsolationStep.ranges_from_answers, h, h1, h2]
    · intro h1
      simp [EnsureMetalLBIsolationStep.ranges_from_answers, h, h1]
    · intro h1 h2
      simp [EnsureMetalLBIsolationStep.ranges_from_answers, h, h1, h2]
    · intro h1 h2 h3
      simp [EnsureMetalLBIsolationStep.ranges_from_answers, h, h1, h2, h3]

/-- Witness for C7: a single shared range with no explicit overrides is
used for both sides. -/
theorem C7_witness :
    EnsureMetalLBIsolationStep.ranges_from_answers wAddonsShared wNiOn
      = (some "10.20.0.0/24", some "10.20.0.0/24") :=
  ((C7_range_resolution wAddonsShared wNiOn).2 rfl).2.2.2.2
    (by decide) (by decide) (by decide)

/-! ## Claim C9 -/

/-- C9: when the imported configuration file parses successfully but its
enable flag is falsy, `import_network_isolation_answers` returns the empty
mapping and performs no write to the answer store. -/
theorem C9_disabled_import_no_write (d : ImportedData)
    (h : d.enable_isolation = false) :
    import_network_isolation_answers true (Except.ok d) = (none, []) := by
  simp [import_network_isolation_answers, h]

/-- Witness for C9 at a concrete parsed document. -/
theorem C9_witness :
    import_network_isolation_answers true
      (Except.ok ⟨false, [("spaces", "management")]⟩) = (none, []) :=
  C9_disabled_import_no_write ⟨false, [("spaces", "management")]⟩ rfl

/-! ## Claim C1 -/

/-- Counterexample to C1 as stated: for a configuration whose isolation
flag is false but an environment in which the kube client handle cannot be
acquired, `EnsureMetalLBIsolationStep.is_skip` returns `Failed`, not
`Skipped`. -/
theorem C1_counterexample :
    (EnsureMetalLBIsolationStep.is_skip (Except.error "no kube client")
      ⟨none, none, none⟩ ⟨false⟩).1.result_type ≠ ResultType.skipped := by
  decide

/-- C1 (amended): for every configuration whose isolation enable flag is
false, `EnsureJujuSpacesStep.is_skip` returns `Skipped`, and
`EnsureMetalLBIsolationStep.is_skip` returns `Skipped` whenever the kube
client handle is acquired (when acquisition fails it returns `Failed`
instead); in every case neither `is_skip` performs a backend mutation or
query call. -/
theorem C1_disabled_is_skip (cfg : SpacesConfig) (addons : AddonsConfig)
    (ni : NIAnswersK8s) (kube : Except String Unit)
    (hj : cfg.enable_isolation = false) (hk : ni.enable_isolation = false) :
    (EnsureJujuSpacesStep.is_skip cfg).1.result_type = ResultType.skipped ∧
    (EnsureJujuSpacesStep.is_skip cfg).2 = [] ∧
    (kube = Except.ok () →
      (EnsureMetalLBIsolationStep.is_skip kube addons ni).1.result_type
        = ResultType.skipped) ∧
    (EnsureMetalLBIsolationStep.is_skip kube addons ni).2 = [] := by
  refine ⟨?_, ?_, ?_, ?_⟩
  · simp [EnsureJujuSpacesStep.is_skip, hj]
  · simp [EnsureJujuSpacesStep.is_skip, hj]
  · intro hkube
    subst hkube
    simp [EnsureMetalLBIsolationStep.is_skip,
      EnsureMetalLBIsolationStep.ranges_from_answers, hk, pyTruthy]
  · cases kube with
    | error e => simp [EnsureMetalLBIsolationStep.is_skip]
    | ok u =>
      simp only [EnsureMetalLBIsolationStep.is_skip]
      split <;> rfl

/-- Witness for the amended C1 at a concrete disabled configuration with an
acquired kube client. -/
theorem C1_witness :
    (EnsureJujuSpacesStep.is_skip ⟨false, []⟩).1.result_type
      = ResultType.skipped ∧
    (EnsureJujuSpacesStep.is_skip ⟨false, []⟩).2 = [] ∧
    (EnsureMetalLBIsolationStep.is_skip (Except.ok ())
      wAddonsShared ⟨false⟩).1.result_type = ResultType.skipped ∧
    (EnsureMetalLBIsolationStep.is_skip (Except.ok ())
      wAddonsShared ⟨false⟩).2 = [] := by
  obtain ⟨h1, h2, h3, h4⟩ := C1_disabled_is_skip ⟨false, []⟩ wAddonsShared
    ⟨false⟩ (Except.ok ()) rfl rfl
  exact ⟨h1, h2, h3 rfl, h4⟩

/-! ## Claim C8 -/

/-- Counterexample to C8 as stated: the default-space binding is not set in
every invocation of `run` — when the live-space query fails, and likewise
when a space creation fails, the invocation ends without issuing the
binding call. -/
theorem C8_counterexample :
    JujuCall.setDefaultSpace ∉ (EnsureJujuSpacesStep.run wCfg wEnvQueryFail).2 ∧
    JujuCall.setDefaultSpace ∉ (EnsureJujuSpacesStep.run wCfg wEnvAddFail).2 := by
  decide

/-- C8 (amended): in every invocation of `run` in which the live-space
query succeeds and every required space creation succeeds (so the loop runs
to completion), the default-space binding call is issued and the step
returns `Completed` — independent of whether any space was created, of
every update outcome, and of the binding call's own outcome, which the
code ignores (the model never consults `defaultSpaceResult`). -/
theorem C8_default_binding_after_loop (cfg : SpacesConfig) (env : JujuEnv)
    (ex : List String)
    (hq : env.spacesQuery = Except.ok ex)
    (hben : ∀ p ∈ cfg.spaces, benignEntry env ex p) :
    (EnsureJujuSpacesStep.run cfg env).1.result_type = ResultType.completed ∧
    JujuCall.setDefaultSpace ∈ (EnsureJujuSpacesStep.run cfg env).2 := by
  have hn := spacesLoop_benign_none env ex cfg.spaces hben
  rw [Juju_run_of_none cfg env ex hq hn]
  exact ⟨rfl, List.mem_cons_of_mem _ (List.mem_append_right _ (by simp))⟩

/-- Witness for the amended C8: one live space whose update fails, one
created space, and a failing binding call; the binding call is still issued
and the step completes. -/
theorem C8_witness :
    (EnsureJujuSpacesStep.run wCfg2 wEnvMixed).1.result_type
      = ResultType.completed ∧
    JujuCall.setDefaultSpace ∈ (EnsureJujuSpacesStep.run wCfg2 wEnvMixed).2 :=
  C8_default_binding_after_loop wCfg2 wEnvMixed ["management"] rfl
    (by
      intro p hp
      rcases List.mem_cons.mp hp with h | h
      · subst h
        exact Or.inr (Or.inl (by decide))
      · rcases List.mem_cons.mp h with h2 | h2
        · subst h2
          exact Or.inr (Or.inr rfl)
        · simp at h2)

/-! ## Claim C4 -/

/-- C4: for every configured space with a non-empty subnet list whose name
is in the live space set, `run` issues a subnet-update command, and a
failure of that update is swallowed: the loop continues (the model never
consults `setSubnetsResult`) and, provided the remaining spaces do not
independently abort the loop, the final result is `Completed`. -/
theorem C4_update_failure_swallowed (cfg : SpacesConfig) (env : JujuEnv)
    (ex : List String) (name : String) (subnets : List String) (e : String)
    (hq : env.spacesQuery = Except.ok ex)
    (hmem : (name, subnets) ∈ cfg.spaces)
    (hne : subnets ≠ [])
    (hlive : name ∈ ex)
    (hupd : env.setSubnetsResult name subnets = Except.error e)
    (hben : ∀ p ∈ cfg.spaces, benignEntry env ex p) :
    JujuCall.setSpaceSubnets name subnets
      ∈ (EnsureJujuSpacesStep.run cfg env).2 ∧
    (EnsureJujuSpacesStep.run cfg env).1.result_type
      = ResultType.completed := by
  have hn := spacesLoop_benign_none env ex cfg.spaces hben
  have hupd2 := spacesLoop_benign_upd env ex cfg.spaces hben name subnets
    hmem hne hlive
  rw [Juju_run_of_none cfg env ex hq hn]
  exact ⟨List.mem_cons_of_mem _ (List.mem_append_left _ hupd2), rfl⟩

/-- Witness for C4: the live space "management" gets an update whose
failure does not prevent completion. -/
theorem C4_witness :
    JujuCall.setSpaceSubnets "management" ["10.0.0.0/24"]
      ∈ (EnsureJujuSpacesStep.run wCfg2 wEnvMixed).2 ∧
    (EnsureJujuSpacesStep.run wCfg2 wEnvMixed).1.result_type
      = ResultType.completed :=
  C4_update_failure_swallowed wCfg2 wEnvMixed ["management"] "management"
    ["10.0.0.0/24"] "unsupported verb" rfl (by decide) (by decide) (by decide)
    rfl
    (by
      intro p hp
      rcases List.mem_cons.mp hp with h | h
      · subst h
        exact Or.inr (Or.inl (by decide))
      · rcases List.mem_cons.mp h with h2 | h2
        · subst h2
          exact Or.inr (Or.inr rfl)
        · simp at h2)

/-! ## Claim C5 -/

/-- C5: for every configured space with a non-empty subnet list whose name
is absent from the live space set and which the loop reaches (the earlier
entries are benign), `run` attempts a create command with the subnet list,
and if the create fails the step returns `Failed` with a message built from
the space name and the underlying error. -/
theorem C5_create_failure_fatal (cfg : SpacesConfig) (env : JujuEnv)
    (ex : List String) (pre post : List (String × List String))
    (name : String) (subnets : List String) (e : String)
    (hq : env.spacesQuery = Except.ok ex)
    (hcfg : cfg.spaces = pre ++ (name, subnets) :: post)
    (hpre : ∀ p ∈ pre, benignEntry env ex p)
    (hne : subnets ≠ [])
    (habs : name ∉ ex)
    (hadd : env.addSpaceResult name subnets = Except.error e) :
    JujuCall.addSpace name subnets ∈ (EnsureJujuSpacesStep.run cfg env).2 ∧
    (EnsureJujuSpacesStep.run cfg env).1
      = ⟨ResultType.failed,
         "Failed to ensure space " ++ name ++ ": " ++ e⟩ := by
  have hemp : ¬subnets.isEmpty = true := by
    simpa [List.isEmpty_iff] using hne
  have hsub : spacesLoop env ex ((name, subnets) :: post)
      = (some ("Failed to ensure space " ++ name ++ ": " ++ e),
         [JujuCall.addSpace name subnets]) := by
    simp [spacesLoop, hemp, habs, hadd]
  obtain ⟨hfst, hmem⟩ :=
    spacesLoop_append_benign env ex pre ((name, subnets) :: post) hpre
  rw [hsub] at hfst hmem
  rw [← hcfg] at hfst hmem
  rw [Juju_run_of_some cfg env ex
    ("Failed to ensure space " ++ name ++ ": " ++ e) hq hfst]
  exact ⟨List.mem_cons_of_mem _ (hmem _ (by simp)), rfl⟩

def wEnvCreateFail2 : JujuEnv :=
  ⟨Except.ok ["management"], fun _ _ => Except.ok (),
   fun n _ => if n = "storage" then Except.error "ENOSPACE"
              else Except.ok (),
   Except.ok ()⟩

/-- Witness for C5: the absent space "storage" fails to create and the step
fails with the composed message. -/
theorem C5_witness :
    JujuCall.addSpace "storage" ["10.3.0.0/24"]
      ∈ (EnsureJujuSpacesStep.run wCfg2 wEnvCreateFail2).2 ∧
    (EnsureJujuSpacesStep.run wCfg2 wEnvCreateFail2).1
      = ⟨ResultType.failed, "Failed to ensure space storage: ENOSPACE"⟩ :=
  C5_create_failure_fatal wCfg2 wEnvCreateFail2 ["management"]
    [("management", ["10.0.0.0/24"])] [] "storage" ["10.3.0.0/24"] "ENOSPACE"
    rfl rfl
    (by
      intro p hp
      rcases List.mem_cons.mp hp with h | h
      · subst h
        exact Or.inr (Or.inl (by decide))
      · simp at h)
    (by decide) (by decide) rfl

/-! ## Claim C3 -/

theorem pubPhase_no_internal_calls (env : KubeEnv) (r : Option String) :
    ∀ c ∈ (poolPhase env PUBLIC_POOL_NAME PUBLIC_ADV_NAME r).2,
      (∀ ps, c ≠ KubeCall.createAdv INTERNAL_ADV_NAME ps) ∧
      (∀ ps, c ≠ KubeCall.replaceAdv INTERNAL_ADV_NAME ps) ∧
      (∀ a p, c ≠ KubeCall.configApp a p) := by
  intro c hc
  rcases poolPhase_calls env PUBLIC_POOL_NAME PUBLIC_ADV_NAME r c hc with
    ⟨x, hx⟩ | ⟨x, hx⟩ | ⟨x, hx⟩ | ⟨x, hx⟩ <;> subst hx <;>
    exact ⟨fun ps => by simp [PUBLIC_ADV_NAME, INTERNAL_ADV_NAME],
           fun ps => by simp [PUBLIC_ADV_NAME, INTERNAL_ADV_NAME],
           fun a p => by simp⟩

/-- C3: for every pool role whose resolved range is present, if the pool
create call fails and the fallback replace also fails, `run` returns
`Failed`, and neither an advertisement create/replace call for that role
nor any service-annotation call occurs in that invocation. -/
theorem C3_pool_failure_no_adv_no_config (env : KubeEnv)
    (addons : AddonsConfig) (ni : NIAnswersK8s) (role : PoolRole)
    (re : String)
    (hr : pyTruthy (role.rangeOf
      (EnsureMetalLBIsolationStep.ranges_from_answers addons ni)) = true)
    (hc : env.createPoolOk role.poolName = false)
    (hrep : env.replacePoolResult role.poolName = Except.error re) :
    (EnsureMetalLBIsolationStep.run env addons ni).1.result_type
      = ResultType.failed ∧
    (∀ ps, KubeCall.createAdv role.advName ps
      ∉ (EnsureMetalLBIsolationStep.run env addons ni).2) ∧
    (∀ ps, KubeCall.replaceAdv role.advName ps
      ∉ (EnsureMetalLBIsolationStep.run env addons ni).2) ∧
    (∀ a p, KubeCall.configApp a p
      ∉ (EnsureMetalLBIsolationStep.run env addons ni).2) := by
  cases role with
  | public =>
    simp only [PoolRole.rangeOf] at hr
    simp only [PoolRole.poolName] at hc hrep
    simp only [PoolRole.advName]
    obtain ⟨rr, hrr, hne⟩ := (pyTruthy_iff _).mp hr
    have hfail := poolPhase_pool_fail env PUBLIC_POOL_NAME PUBLIC_ADV_NAME
      rr re hne hc hrep
    have hphase : (poolPhase env PUBLIC_POOL_NAME PUBLIC_ADV_NAME
        (EnsureMetalLBIsolationStep.ranges_from_answers addons ni).1).1
        = Except.error
          ("Failed to apply IPAddressPool " ++ PUBLIC_POOL_NAME ++ ": " ++ re)
        := by
      rw [hrr, hfail]
    rw [MetalLB_run_pub_fail env addons ni _ hphase]
    have htr : (poolPhase env PUBLIC_POOL_NAME PUBLIC_ADV_NAME
        (EnsureMetalLBIsolationStep.ranges_from_answers addons ni).1).2
        = [KubeCall.createPool PUBLIC_POOL_NAME (parseAddresses rr),
           KubeCall.replacePool PUBLIC_POOL_NAME (parseAddresses rr)] := by
      rw [hrr, hfail]
    rw [htr]
    refine ⟨rfl, ?_, ?_, ?_⟩
    · intro ps
      simp
    · intro ps
      simp
    · intro a p
      simp
  | internal =>
    simp only [PoolRole.rangeOf] at hr
    simp only [PoolRole.poolName] at hc hrep
    simp only [PoolRole.advName]
    obtain ⟨rr, hrr, hne⟩ := (pyTruthy_iff _).mp hr
    have hfail := poolPhase_pool_fail env INTERNAL_POOL_NAME INTERNAL_ADV_NAME
      rr re hne hc hrep
    rcases hpub : (poolPhase env PUBLIC_POOL_NAME PUBLIC_ADV_NAME
        (EnsureMetalLBIsolationStep.ranges_from_answers addons ni).1).1
      with e | u
    · rw [MetalLB_run_pub_fail env addons ni e hpub]
      refine ⟨rfl, ?_, ?_, ?_⟩
      · intro ps hmemX
        exact (pubPhase_no_internal_calls env _ _ hmemX).1 ps rfl
      · intro ps hmemX
        exact (pubPhase_no_internal_calls env _ _ hmemX).2.1 ps rfl
      · intro a p hmemX
        exact (pubPhase_no_internal_calls env _ _ hmemX).2.2 a p rfl
    · cases u
      have hphase : (poolPhase env INTERNAL_POOL_NAME INTERNAL_ADV_NAME
          (EnsureMetalLBIsolationStep.ranges_from_answers addons ni).2).1
          = Except.error
            ("Failed to apply IPAddressPool " ++ INTERNAL_POOL_NAME
              ++ ": " ++ re) := by
        rw [hrr, hfail]
      rw [MetalLB_run_int_fail env addons ni _ hpub hphase]
      have htr : (poolPhase env INTERNAL_POOL_NAME INTERNAL_ADV_NAME
          (EnsureMetalLBIsolationStep.ranges_from_answers addons ni).2).2
          = [KubeCall.createPool INTERNAL_POOL_NAME (parseAddresses rr),
             KubeCall.replacePool INTERNAL_POOL_NAME (parseAddresses rr)] := by
        rw [hrr, hfail]
      rw [htr]
      refine ⟨rfl, ?_, ?_, ?_⟩
      · intro ps hmemX
        rcases List.mem_append.mp hmemX with h | h
        · exact (pubPhase_no_internal_calls env _ _ h).1 ps rfl
        · simp at h
      · intro ps hmemX
        rcases List.mem_append.mp hmemX with h | h
        · exact (pubPhase_no_internal_calls env _ _ h).2.1 ps rfl
        · simp at h
      · intro a p hmemX
        rcases List.mem_append.mp hmemX with h | h
        · exact (pubPhase_no_internal_calls env _ _ h).2.2 a p rfl
        · simp at h

def wEnvPoolFail : KubeEnv :=
  ⟨fun _ => false, fun _ => Except.error "replace denied", fun _ => true,
   fun _ => Except.ok (), ["traefik"], fun _ => Except.ok ()⟩

/-- Witness for C3 at a concrete environment where the public pool's create
and replace both fail. -/
theorem C3_witness :
    (EnsureMetalLBIsolationStep.run wEnvPoolFail wAddonsShared
      wNiOn).1.result_type = ResultType.failed ∧
    KubeCall.createAdv PUBLIC_ADV_NAME [PUBLIC_POOL_NAME]
      ∉ (EnsureMetalLBIsolationStep.run wEnvPoolFail wAddonsShared wNiOn).2 ∧
    KubeCall.configApp "traefik" INTERNAL_POOL_NAME
      ∉ (EnsureMetalLBIsolationStep.run wEnvPoolFail wAddonsShared wNiOn).2 := by
  obtain ⟨h1, h2, h3, h4⟩ := C3_pool_failure_no_adv_no_config wEnvPoolFail
    wAddonsShared wNiOn PoolRole.public "replace denied" (by decide) rfl rfl
  exact ⟨h1, h2 [PUBLIC_POOL_NAME], h4 "traefik" INTERNAL_POOL_NAME⟩

/-! ## Claim C10 -/

def wEnvConfigFail : KubeEnv :=
  ⟨fun _ => true, fun _ => Except.ok (), fun _ => true, fun _ => Except.ok (),
   ["traefik", "traefik-public"],
   fun a => if a = "traefik" then Except.error "config rejected"
            else Except.ok ()⟩

/-- Counterexample to C10 as stated: the run reaches the annotation phase
(the application query is in the trace) and "traefik-public" is present in
the deployment, yet no annotation call for "traefik-public" is issued,
because the failing config call for "traefik" aborts the annotation
loop. -/
theorem C10_counterexample :
    KubeCall.queryApps
      ∈ (EnsureMetalLBIsolationStep.run wEnvConfigFail wAddonsShared wNiOn).2 ∧
    "traefik-public" ∈ wEnvConfigFail.appNames ∧
    KubeCall.configApp "traefik-public" PUBLIC_POOL_NAME
      ∉ (EnsureMetalLBIsolationStep.run wEnvConfigFail wAddonsShared
          wNiOn).2 := by
  decide

/-- C10 (amended): provided every application-config call succeeds, whenever
`run` completes — hence reached the annotation phase — every application of
the static `TRAEFIK_APPS` table that is present in the deployment receives
an annotation call with its fixed pool name; moreover when the internal
resolved range is absent, no create call for the internal pool occurs in
that invocation, so a present "traefik" is annotated with the name of a
pool that was not created. -/
theorem C10_static_annotation_table (env : KubeEnv) (addons : AddonsConfig)
    (ni : NIAnswersK8s)
    (hconf : ∀ a, env.appConfigResult a = Except.ok ())
    (hrun : (EnsureMetalLBIsolationStep.run env addons ni).1.result_type
      = ResultType.completed) :
    (∀ p ∈ TRAEFIK_APPS, p.1 ∈ env.appNames →
      KubeCall.configApp p.1 p.2
        ∈ (EnsureMetalLBIsolationStep.run env addons ni).2) ∧
    (pyTruthy (EnsureMetalLBIsolationStep.ranges_from_answers addons ni).2
        = false →
      ∀ a, KubeCall.createPool INTERNAL_POOL_NAME a
        ∉ (EnsureMetalLBIsolationStep.run env addons ni).2) := by
  obtain ⟨hpub, hint, hann⟩ := MetalLB_run_completed_parts env addons ni hrun
  have hruneq := MetalLB_run_of_parts env addons ni hpub hint hann
  constructor
  · intro p hp hpm
    rw [hruneq]
    exact List.mem_append_right _ (annotateTraefik_mem env hconf p hp hpm)
  · intro hf a hmemX
    rw [hruneq] at hmemX
    rcases List.mem_append.mp hmemX with h | h
    · rcases List.mem_append.mp h with h1 | h1
      · obtain ⟨x, hx⟩ | ⟨x, hx⟩ | ⟨x, hx⟩ | ⟨x, hx⟩ :=
          poolPhase_calls env PUBLIC_POOL_NAME PUBLIC_ADV_NAME _ _ h1 <;>
          simp [INTERNAL_POOL_NAME, PUBLIC_POOL_NAME] at hx
      · rw [poolPhase_falsy env INTERNAL_POOL_NAME INTERNAL_ADV_NAME _ hf]
          at h1
        simp at h1
    · rcases annotateTraefik_calls env _ h with h1 | ⟨x, y, h1⟩ <;> simp at h1

def wEnvAllOk : KubeEnv :=
  ⟨fun _ => true, fun _ => Except.ok (), fun _ => true, fun _ => Except.ok (),
   ["traefik", "traefik-public"], fun _ => Except.ok ()⟩

def wAddonsPubOnly : AddonsConfig :=
  ⟨some "10.1.0.0/24, 10.1.1.0/24", none, none⟩

/-- Witness for the amended C10: with only a public range configured,
"traefik" is annotated with the internal pool name although no internal
pool create call occurs in the invocation. -/
theorem C10_witness :
    KubeCall.configApp "traefik" INTERNAL_POOL_NAME
      ∈ (EnsureMetalLBIsolationStep.run wEnvAllOk wAddonsPubOnly wNiOn).2 ∧
    KubeCall.createPool INTERNAL_POOL_NAME ["10.1.0.0/24"]
      ∉ (EnsureMetalLBIsolationStep.run wEnvAllOk wAddonsPubOnly wNiOn).2 := by
  obtain ⟨h1, h2⟩ := C10_static_annotation_table wEnvAllOk wAddonsPubOnly
    wNiOn (fun a => rfl) (by decide)
  exact ⟨h1 ("traefik", INTERNAL_POOL_NAME) (by decide) (by decide),
         h2 (by decide) ["10.1.0.0/24"]⟩

/-! ## Claim C2 -/

def wEnvK8sFresh : KubeEnv :=
  ⟨fun _ => true, fun _ => Except.ok (), fun _ => true, fun _ => Except.ok (),
   [], fun _ => Except.ok ()⟩

def wEnvK8sSecond : KubeEnv :=
  ⟨fun _ => false, fun _ => Except.ok (), fun _ => false,
   fun _ => Except.ok (), [], fun _ => Except.ok ()⟩

/-- Counterexample to C2 as stated: the first run creates the public pool;
against a backend reflecting that run (create now fails, replace succeeds)
the second run still completes, but it does issue a create call for the
previously-created pool — the pool path is optimistic-create-then-replace,
not update-only. -/
theorem C2_counterexample :
    (EnsureMetalLBIsolationStep.run wEnvK8sFresh wAddonsShared
      wNiOn).1.result_type = ResultType.completed ∧
    KubeCall.createPool PUBLIC_POOL_NAME (parseAddresses "10.20.0.0/24")
      ∈ (EnsureMetalLBIsolationStep.run wEnvK8sFresh wAddonsShared wNiOn).2 ∧
    (EnsureMetalLBIsolationStep.run wEnvK8sSecond wAddonsShared
      wNiOn).1.result_type = ResultType.completed ∧
    KubeCall.createPool PUBLIC_POOL_NAME (parseAddresses "10.20.0.0/24")
      ∈ (EnsureMetalLBIsolationStep.run wEnvK8sSecond wAddonsShared
          wNiOn).2 := by
  have hr1 : (EnsureMetalLBIsolationStep.ranges_from_answers wAddonsShared
      wNiOn).1 = some "10.20.0.0/24" := by decide
  have hfresh : (EnsureMetalLBIsolationStep.run wEnvK8sFresh wAddonsShared
      wNiOn).1.result_type = ResultType.completed := by decide
  have hsecond : (EnsureMetalLBIsolationStep.run wEnvK8sSecond wAddonsShared
      wNiOn).1.result_type = ResultType.completed := by decide
  obtain ⟨hp1, hi1, ha1⟩ := MetalLB_run_completed_parts wEnvK8sFresh
    wAddonsShared wNiOn hfresh
  obtain ⟨hp2, hi2, ha2⟩ := MetalLB_run_completed_parts wEnvK8sSecond
    wAddonsShared wNiOn hsecond
  have heq1 := MetalLB_run_of_parts wEnvK8sFresh wAddonsShared wNiOn
    hp1 hi1 ha1
  have heq2 := MetalLB_run_of_parts wEnvK8sSecond wAddonsShared wNiOn
    hp2 hi2 ha2
  rw [hr1] at hp1 hp2
  refine ⟨hfresh, ?_, hsecond, ?_⟩
  · rw [heq1, hr1]
    exact List.mem_append_left _ (List.mem_append_left _
      (poolPhase_ok_mem wEnvK8sFresh PUBLIC_POOL_NAME PUBLIC_ADV_NAME
        "10.20.0.0/24" (by decide) hp1).1)
  · rw [heq2, hr1]
    exact List.mem_append_left _ (List.mem_append_left _
      (poolPhase_ok_mem wEnvK8sSecond PUBLIC_POOL_NAME PUBLIC_ADV_NAME
        "10.20.0.0/24" (by decide) hp2).1)

/-- C2 (amended): with unchanged configuration, if the first run of each
reconciler completed and the second environment reflects the first run's
effect (every space the first run created is now in the live set; every
pool/advertisement the first run create-called now fails optimistic create
and accepts replace; config calls succeed), then the second run completes
for both reconcilers; the second space run issues no add-space call and
drives every previously-created space through a set-space-subnets call;
and every previously-created pool is driven through a replace call (its
optimistic create call is re-issued and fails, rather than being skipped).
-/
theorem C2_idempotent_second_run
    (cfg : SpacesConfig) (envJ1 envJ2 : JujuEnv) (ex1 ex2 : List String)
    (envK1 envK2 : KubeEnv) (addons : AddonsConfig) (ni : NIAnswersK8s)
    (hq1 : envJ1.spacesQuery = Except.ok ex1)
    (hj1 : (EnsureJujuSpacesStep.run cfg envJ1).1.result_type
      = ResultType.completed)
    (hq2 : envJ2.spacesQuery = Except.ok ex2)
    (hsub : ∀ n, n ∈ ex1 → n ∈ ex2)
    (hnew : ∀ n s, JujuCall.addSpace n s
      ∈ (EnsureJujuSpacesStep.run cfg envJ1).2 → n ∈ ex2)
    (hk1 : (EnsureMetalLBIsolationStep.run envK1 addons ni).1.result_type
      = ResultType.completed)
    (hpc : ∀ n a, KubeCall.createPool n a
      ∈ (EnsureMetalLBIsolationStep.run envK1 addons ni).2 →
      envK2.createPoolOk n = false)
    (hpr : ∀ n a, KubeCall.createPool n a
      ∈ (EnsureMetalLBIsolationStep.run envK1 addons ni).2 →
      envK2.replacePoolResult n = Except.ok ())
    (hac : ∀ n p, KubeCall.createAdv n p
      ∈ (EnsureMetalLBIsolationStep.run envK1 addons ni).2 →
      envK2.createAdvOk n = false)
    (har : ∀ n p, KubeCall.createAdv n p
      ∈ (EnsureMetalLBIsolationStep.run envK1 addons ni).2 →
      envK2.replaceAdvResult n = Except.ok ())
    (hcfg2 : ∀ a, envK2.appConfigResult a = Except.ok ()) :
    (EnsureJujuSpacesStep.run cfg envJ2).1.result_type
      = ResultType.completed ∧
    (∀ n s, JujuCall.addSpace n s ∉ (EnsureJujuSpacesStep.run cfg envJ2).2) ∧
    (∀ n s, JujuCall.addSpace n s ∈ (EnsureJujuSpacesStep.run cfg envJ1).2 →
      JujuCall.setSpaceSubnets n s ∈ (EnsureJujuSpacesStep.run cfg envJ2).2) ∧
    (EnsureMetalLBIsolationStep.run envK2 addons ni).1.result_type
      = ResultType.completed ∧
    (∀ n a, KubeCall.createPool n a
      ∈ (EnsureMetalLBIsolationStep.run envK1 addons ni).2 →
      KubeCall.replacePool n a
        ∈ (EnsureMetalLBIsolationStep.run envK2 addons ni).2) := by
  have hn1 := Juju_run_completed_none cfg envJ1 ex1 hq1 hj1
  have hrun1eq := Juju_run_of_none cfg envJ1 ex1 hq1 hn1
  have hall : ∀ p ∈ cfg.spaces, p.2 ≠ [] → p.1 ∈ ex2 := by
    intro p hp hpne
    rcases spacesLoop_none_mem envJ1 ex1 cfg.spaces hn1 p hp hpne with h | h
    · exact hsub _ h
    · refine hnew p.1 p.2 ?_
      rw [hrun1eq]
      exact List.mem_cons_of_mem _ (List.mem_append_left _ h)
  have hn2 := spacesLoop_all_mem_none envJ2 ex2 cfg.spaces hall
  have hrun2eq := Juju_run_of_none cfg envJ2 ex2 hq2 hn2
  obtain ⟨hpub1, hint1, hann1⟩ :=
    MetalLB_run_completed_parts envK1 addons ni hk1
  have hrun1keq := MetalLB_run_of_parts envK1 addons ni hpub1 hint1 hann1
  have hincl1 : ∀ c ∈ (poolPhase envK1 PUBLIC_POOL_NAME PUBLIC_ADV_NAME
      (EnsureMetalLBIsolationStep.ranges_from_answers addons ni).1).2,
      c ∈ (EnsureMetalLBIsolationStep.run envK1 addons ni).2 := by
    intro c hc
    rw [hrun1keq]
    exact List.mem_append_left _ (List.mem_append_left _ hc)
  have hincl2 : ∀ c ∈ (poolPhase envK1 INTERNAL_POOL_NAME INTERNAL_ADV_NAME
      (EnsureMetalLBIsolationStep.ranges_from_answers addons ni).2).2,
      c ∈ (EnsureMetalLBIsolationStep.run envK1 addons ni).2 := by
    intro c hc
    rw [hrun1keq]
    exact List.mem_append_left _ (List.mem_append_right _ hc)
  obtain ⟨hpub2, hpubrep⟩ := second_pool_phase envK1 envK2
    PUBLIC_POOL_NAME PUBLIC_ADV_NAME
    (EnsureMetalLBIsolationStep.ranges_from_answers addons ni).1
    (EnsureMetalLBIsolationStep.run envK1 addons ni).2
    hpub1 hincl1 (fun a => hpc PUBLIC_POOL_NAME a)
    (fun a => hpr PUBLIC_POOL_NAME a) (fun p => hac PUBLIC_ADV_NAME p)
    (fun p => har PUBLIC_ADV_NAME p)
  obtain ⟨hint2, hintrep⟩ := second_pool_phase envK1 envK2
    INTERNAL_POOL_NAME INTERNAL_ADV_NAME
    (EnsureMetalLBIsolationStep.ranges_from_answers addons ni).2
    (EnsureMetalLBIsolationStep.run envK1 addons ni).2
    hint1 hincl2 (fun a => hpc INTERNAL_POOL_NAME a)
    (fun a => hpr INTERNAL_POOL_NAME a) (fun p => hac INTERNAL_ADV_NAME p)
    (fun p => har INTERNAL_ADV_NAME p)
  have hann2 := annotateTraefik_ok envK2 hcfg2
  have hrun2keq := MetalLB_run_of_parts envK2 addons ni hpub2 hint2 hann2
  refine ⟨?_, ?_, ?_, ?_, ?_⟩
  · rw [hrun2eq]
  · intro n s hmemX
    rw [hrun2eq] at hmemX
    rcases List.mem_cons.mp hmemX with h | h
    · simp at h
    · rcases List.mem_append.mp h with h | h
      · exact spacesLoop_all_mem_no_add envJ2 ex2 cfg.spaces hall n s h
      · simp at h
  · intro n s hadd1
    rw [hrun1eq] at hadd1
    rcases List.mem_cons.mp hadd1 with h | h
    · simp at h
    · rcases List.mem_append.mp h with h | h
      · obtain ⟨hmem, hne⟩ := spacesLoop_add_origin envJ1 ex1 cfg.spaces n s h
        rw [hrun2eq]
        exact List.mem_cons_of_mem _ (List.mem_append_left _
          (spacesLoop_all_mem_upd envJ2 ex2 cfg.spaces hall n s hmem hne))
      · simp at h
  · rw [hrun2keq]
  · intro n a h
    have horig := h
    rw [hrun1keq] at h
    rcases List.mem_append.mp h with h | h
    · rcases List.mem_append.mp h with h1 | h1
      · obtain ⟨rr, hrr, hne, hn, ha⟩ := poolPhase_createPool_origin envK1
          PUBLIC_POOL_NAME PUBLIC_ADV_NAME _ n a h1
        subst hn
        rw [hrun2keq]
        exact List.mem_append_left _ (List.mem_append_left _ (hpubrep a h1))
      · obtain ⟨rr, hrr, hne, hn, ha⟩ := poolPhase_createPool_origin envK1
          INTERNAL_POOL_NAME INTERNAL_ADV_NAME _ n a h1
        subst hn
        rw [hrun2keq]
        exact List.mem_append_left _ (List.mem_append_right _ (hintrep a h1))
    · rcases annotateTraefik_calls envK1 _ h with h1 | ⟨x, y, h1⟩ <;>
        simp at h1

def wEnvJ1Fresh : JujuEnv :=
  ⟨Except.ok [], fun _ _ => Except.ok (), fun _ _ => Except.ok (),
   Except.ok ()⟩

def wEnvJ2Second : JujuEnv :=
  ⟨Except.ok ["management"], fun _ _ => Except.error "unsupported verb",
   fun _ _ => Except.error "already exists", Except.ok ()⟩

/-- Witness for the amended C2 at concrete first/second environments: the
second space run completes with an update and no create, and the
previously-created public pool is driven through a replace call on the
second run. -/
theorem C2_witness :
    (EnsureJujuSpacesStep.run wCfg wEnvJ2Second).1.result_type
      = ResultType.completed ∧
    JujuCall.addSpace "management" ["10.0.0.0/24"]
      ∉ (EnsureJujuSpacesStep.run wCfg wEnvJ2Second).2 ∧
    JujuCall.setSpaceSubnets "management" ["10.0.0.0/24"]
      ∈ (EnsureJujuSpacesStep.run wCfg wEnvJ2Second).2 ∧
    (EnsureMetalLBIsolationStep.run wEnvK8sSecond wAddonsShared
      wNiOn).1.result_type = ResultType.completed ∧
    KubeCall.replacePool PUBLIC_POOL_NAME (parseAddresses "10.20.0.0/24")
      ∈ (EnsureMetalLBIsolationStep.run wEnvK8sSecond wAddonsShared
          wNiOn).2 := by
  have hfresh : (EnsureMetalLBIsolationStep.run wEnvK8sFresh wAddonsShared
      wNiOn).1.result_type = ResultType.completed := by decide
  have hr1 : (EnsureMetalLBIsolationStep.ranges_from_answers wAddonsShared
      wNiOn).1 = some "10.20.0.0/24" := by decide
  obtain ⟨hp1, hi1, ha1⟩ := MetalLB_run_completed_parts wEnvK8sFresh
    wAddonsShared wNiOn hfresh
  have heq1 := MetalLB_run_of_parts wEnvK8sFresh wAddonsShared wNiOn
    hp1 hi1 ha1
  rw [hr1] at hp1
  have hmem1 : KubeCall.createPool PUBLIC_POOL_NAME
      (parseAddresses "10.20.0.0/24")
      ∈ (EnsureMetalLBIsolationStep.run wEnvK8sFresh wAddonsShared
          wNiOn).2 := by
    rw [heq1, hr1]
    exact List.mem_append_left _ (List.mem_append_left _
      (poolPhase_ok_mem wEnvK8sFresh PUBLIC_POOL_NAME PUBLIC_ADV_NAME
        "10.20.0.0/24" (by decide) hp1).1)
  obtain ⟨h1, h2, h3, h4, h5⟩ := C2_idempotent_second_run wCfg wEnvJ1Fresh
    wEnvJ2Second [] ["management"] wEnvK8sFresh wEnvK8sSecond wAddonsShared
    wNiOn rfl (by decide) rfl
    (by intro n hn; simp at hn)
    (by
      intro n s hmem
      have hn : (spacesLoop wEnvJ1Fresh [] wCfg.spaces).1 = none := by decide
      rw [Juju_run_of_none wCfg wEnvJ1Fresh [] rfl hn] at hmem
      rcases List.mem_cons.mp hmem with h | h
      · simp at h
      · rcases List.mem_append.mp h with h | h
        · obtain ⟨hm, _⟩ := spacesLoop_add_origin wEnvJ1Fresh [] wCfg.spaces
            n s h
          simp [wCfg] at hm
          simp [hm.1]
        · simp at h)
    hfresh
    (fun n a _ => rfl) (fun n a _ => rfl) (fun n p _ => rfl)
    (fun n p _ => rfl) (fun a => rfl)
  exact ⟨h1, h2 "management" ["10.0.0.0/24"],
         h3 "management" ["10.0.0.0/24"] (by decide), h4,
         h5 PUBLIC_POOL_NAME (parseAddresses "10.20.0.0/24") hmem1⟩
